import Mathlib

/-!
Shallow embedding of the `lockwars` simulation engine
(`src/cooldown.rs`, `src/player.rs`, `src/object.rs`, `src/game.rs`).

Wall-clock time (`std::time::Instant` / `Duration`) is modelled by a natural
number of ticks; every operation that reads the clock takes the current time
`now : Nat` as an explicit argument.  `u32` arithmetic is modelled on `Nat`
with the overflow behaviour made explicit where the source relies on it
(`checked_sub`, `saturating_add`).  Fallible operations (`anyhow::Result`)
return `Except String`.  The `RefCell` double-borrow abort that the `Fire`
branch of `Game::update` can hit (borrowing a cell that is already mutably
borrowed) is modelled as an `Except.error`, since it aborts the pass.

The `game.rs` snapshot in this repository stores the placement catalog in
`GameSettings` (`PlacementSettings::get_placement`), and its `Placement`
record carries only the object and its cost: `place_object` neither checks
nor resets any placement cooldown.  The embedding follows `game.rs`.
-/

namespace Lockwars

/-- Cooldown token, from `src/cooldown.rs`: a duration plus the instant of
the last reset.  Time is a `Nat` tick count. -/
structure Cooldown where
  duration : Nat
  instant : Nat
  deriving DecidableEq

/-- `Cooldown::new`: the token starts as if just reset at the current time. -/
def Cooldown.new (duration now : Nat) : Cooldown :=
  { duration := duration, instant := now }

/-- `Cooldown::reset`: set the last-reset instant to the current time. -/
def Cooldown.reset (c : Cooldown) (now : Nat) : Cooldown :=
  { c with instant := now }

/-- `Instant::elapsed` for the stored instant (monotone clock, so truncated
subtraction agrees with the source whenever `instant ≤ now`). -/
def Cooldown.elapsed (c : Cooldown) (now : Nat) : Nat :=
  now - c.instant

/-- The readiness test inlined in `Cooldown::execute`
(`self.instant.elapsed() >= self.duration`). -/
def Cooldown.isOver (c : Cooldown) (now : Nat) : Bool :=
  c.duration ≤ c.elapsed now

/-- `Cooldown::execute`: if the cooldown is over, reset the token and run the
callback, returning its result; otherwise do nothing.  The new token state is
returned alongside the optional result. -/
def Cooldown.execute (c : Cooldown) (now : Nat) (f : Unit → α) : Option α × Cooldown :=
  if c.duration ≤ c.elapsed now then (some (f ()), c.reset now) else (none, c)

/-- The two players, from `src/player.rs`. -/
inductive Player where
  | Left
  | Right
  deriving DecidableEq

/-- `Player::toggle`: the opposite player. -/
def Player.toggle : Player → Player
  | .Left => .Right
  | .Right => .Left

/-- `Players<T>`: the same data for both players. -/
structure Players (T : Type) where
  left : T
  right : T
  deriving DecidableEq

/-- Indexing `Players<T>` by a player (`Index` impl). -/
def Players.get (ps : Players T) (p : Player) : T :=
  match p with
  | .Left => ps.left
  | .Right => ps.right

/-- Functional update of one player's entry (`IndexMut` impl). -/
def Players.set (ps : Players T) (p : Player) (x : T) : Players T :=
  match p with
  | .Left => { ps with left := x }
  | .Right => { ps with right := x }

/-- The kind of an object, as used by `game.rs` (`Key`, `Fire`, `Barrier`),
with the kind-specific data each variant carries. -/
inductive ObjectKind where
  | Key (generation : Nat) (cooldown : Cooldown)
  | Fire (damage : Nat) (cooldown : Cooldown)
  | Barrier
  deriving DecidableEq

/-- An object: its kind plus health, as accessed by `game.rs`
(`object.health`) and constructed in `main.rs`. -/
structure Object where
  kind : ObjectKind
  health : Nat
  max_health : Nat
  deriving DecidableEq

/-- `OwnedObject`: an object together with its owner. -/
structure OwnedObject where
  object : Object
  owner : Player
  deriving DecidableEq

/-- A cell: an optional owned object (`game.rs`). -/
structure Cell where
  object : Option OwnedObject
  deriving DecidableEq

/-- `Cell::empty`. -/
def Cell.empty : Cell :=
  { object := none }

/-- `Cell::receive_damage`: if an object is present and its health exceeds
the damage, subtract; otherwise remove the object. -/
def Cell.receive_damage (cl : Cell) (damage : Nat) : Cell :=
  match cl.object with
  | none => cl
  | some ow =>
    if damage < ow.object.health then
      { object := some { ow with object := { ow.object with health := ow.object.health - damage } } }
    else
      { object := none }

/-- Placement data from `game.rs`: the object being placed and its cost.
This snapshot's placement record has no cooldown field. -/
structure Placement where
  object : Object
  cost : Nat
  deriving DecidableEq

/-- `PlacementSettings`: the placement catalog, a function from indices to
optional placements (`Box<dyn Fn(usize) -> Option<Placement>>`). -/
structure PlacementSettings where
  get_placement : Nat → Option Placement

/-- `GameSettings` from `game.rs`.  `base_span: Range<usize>` is split into
its `start` and `end` bounds. -/
structure GameSettings where
  n_columns : Nat
  n_rows : Nat
  base_span_start : Nat
  base_span_end : Nat
  max_keys : Nat
  placement : PlacementSettings

/-- `GameSettings::get_placement`. -/
def GameSettings.get_placement (s : GameSettings) (index : Nat) : Option Placement :=
  s.placement.get_placement index

/-- Per-player data as used by `game.rs` (`players[player].keys`). -/
structure PlayerData where
  keys : Nat
  deriving DecidableEq

/-- The cell grid (`ndarray::Array2<RefCell<Cell>>`): a shape plus the cell
contents, addressed by `(row, column)`. -/
structure Grid where
  n_rows : Nat
  n_cols : Nat
  cellf : Nat → Nat → Cell

/-- Bounds-checked lookup (`ndarray` `get`). -/
def Grid.get? (b : Grid) (r c : Nat) : Option Cell :=
  if r < b.n_rows ∧ c < b.n_cols then some (b.cellf r c) else none

/-- In-bounds store through a mutable reference.  The source only writes a
cell obtained from a successful bounds-checked lookup or from iteration, so
the position is always in bounds where this is used. -/
def Grid.set (b : Grid) (r c : Nat) (x : Cell) : Grid :=
  { b with cellf := fun r' c' => if r' = r ∧ c' = c then x else b.cellf r' c' }

/-- The game state (`game.rs`). -/
structure Game where
  settings : GameSettings
  cells : Grid
  players : Players PlayerData

/-- Bounds-checked cell lookup on a game. -/
def Game.getCell? (g : Game) (pos : Nat × Nat) : Option Cell :=
  g.cells.get? pos.1 pos.2

/-- The cell at a position; out-of-shape positions read as empty (the source
never reads out of shape, so the default is irrelevant there). -/
def Game.cellAt (g : Game) (r c : Nat) : Cell :=
  (g.cells.get? r c).getD Cell.empty

/-- Store one cell of a game. -/
def Game.setCell (g : Game) (r c : Nat) (x : Cell) : Game :=
  { g with cells := g.cells.set r c x }

/-- `Game::clear_cell`: error on an out-of-bounds position, otherwise empty
the cell.  The `player` argument is unused in the source (`_player`). -/
def Game.clear_cell (g : Game) (_player : Player) (pos : Nat × Nat) : Except String Game :=
  match g.getCell? pos with
  | none => .error "invalid position"
  | some _ => .ok (g.setCell pos.1 pos.2 { object := none })

/-- Overwrite one player's key count. -/
def Game.updateKeys (g : Game) (p : Player) (k : Nat) : Game :=
  { g with players := g.players.set p { keys := k } }

/-- `u32::checked_sub`. -/
def checkedSub (a b : Nat) : Option Nat :=
  if b ≤ a then some (a - b) else none

/-- The largest `u32` value. -/
def U32_MAX : Nat := 2 ^ 32 - 1

/-- `u32::saturating_add` on the `Nat` model. -/
def u32SaturatingAdd (a b : Nat) : Nat :=
  min (a + b) U32_MAX

/-- `Game::place_object`, exactly as in `game.rs`: error on an out-of-bounds
position; `Ok(false)` when the index has no placement in the catalog or when
`keys.checked_sub(cost)` fails; otherwise deduct the cost and overwrite the
target cell with the placed object owned by the placing player. -/
def Game.place_object (g : Game) (player : Player) (pos : Nat × Nat) (index : Nat) :
    Except String (Bool × Game) :=
  match g.getCell? pos with
  | none => .error "invalid position"
  | some _ =>
    match g.settings.get_placement index with
    | none => .ok (false, g)
    | some pl =>
      match checkedSub (g.players.get player).keys pl.cost with
      | none => .ok (false, g)
      | some remaining =>
        .ok (true,
          Game.updateKeys
            (g.setCell pos.1 pos.2 { object := some { object := pl.object, owner := player } })
            player remaining)

/-- The column scan order of `Game::find_target`, keyed by the targeted
player: `(0..n_columns).rev()` when targeting `Left`,
`n_columns..2*n_columns` when targeting `Right`. -/
def scanColumns (nc : Nat) : Player → List Nat
  | .Left => (List.range nc).reverse
  | .Right => (List.range nc).map (fun k => nc + k)

/-- The inner loop of `Game::find_target` (`find_in`).  `cur` is the column
of the cell currently held mutably borrowed by the `update` pass; reading it
with `RefCell::borrow` aborts, which is modelled as an error. -/
def findIn (g : Game) (row cur : Nat) : List Nat → Except String (Option Nat)
  | [] => .ok none
  | c :: rest =>
    if c = cur then .error "already mutably borrowed"
    else if (g.cellAt row c).object.isSome then .ok (some c)
    else findIn g row cur rest

/-- `Game::find_target` for a fire in row `row` at column `cur`, targeting
the half of `player`. -/
def Game.find_target (g : Game) (row cur : Nat) (player : Player) : Except String (Option Nat) :=
  findIn g row cur (scanColumns g.settings.n_columns player)

/-- The first occupied column of row `row` in scan order, read directly off
the state (the pure content of `find_target`, without the borrow bookkeeping). -/
def fireTargetSpec (g : Game) (row : Nat) (owner : Player) : Option Nat :=
  (scanColumns g.settings.n_columns owner.toggle).find?
    (fun col => (g.cellAt row col).object.isSome)

/-- The key-generation effect of the `Key` branch of `Game::update`:
`keys.saturating_add(generation).min(settings.max_keys)`. -/
def Game.addKeys (g : Game) (p : Player) (generation : Nat) : Game :=
  g.updateKeys p (min (u32SaturatingAdd (g.players.get p).keys generation) g.settings.max_keys)

/-- The occupant of a key cell after its generation cooldown was reset in
place through the held mutable borrow. -/
def keyResetCell (ow : OwnedObject) (generation : Nat) (cooldown : Cooldown) (now : Nat) : Cell :=
  { object := some { ow with object := { ow.object with kind := .Key generation (cooldown.reset now) } } }

/-- The occupant of a fire cell after its attack cooldown was reset in
place through the held mutable borrow. -/
def fireResetCell (ow : OwnedObject) (damage : Nat) (cooldown : Cooldown) (now : Nat) : Cell :=
  { object := some { ow with object := { ow.object with kind := .Fire damage (cooldown.reset now) } } }

/-- One step of the `Game::update` loop, for the cell at `(r, c)`:
dispatch on the object kind and run its cooldown-gated effect.  In the
`Fire` branch the cooldown is reset first (inside `Cooldown::execute`),
then the target search runs while the cell of the fire itself is still mutably
borrowed. -/
def Game.updateCell (now : Nat) (g : Game) (r c : Nat) : Except String Game :=
  match (g.cellAt r c).object with
  | none => .ok g
  | some ow =>
    match ow.object.kind with
    | .Key generation cooldown =>
      if cooldown.isOver now then
        .ok (Game.addKeys (g.setCell r c (keyResetCell ow generation cooldown now))
          ow.owner generation)
      else .ok g
    | .Fire damage cooldown =>
      if cooldown.isOver now then
        let g1 := g.setCell r c (fireResetCell ow damage cooldown now)
        match g1.find_target r c ow.owner.toggle with
        | .error e => .error e
        | .ok none => .ok g1
        | .ok (some tc) => .ok (g1.setCell r tc ((g1.cellAt r tc).receive_damage damage))
      else .ok g
    | .Barrier => .ok g

/-- The row-major index order of `indexed_iter` over an `n_rows × n_cols`
array. -/
def rowMajor (nRows nCols : Nat) : List (Nat × Nat) :=
  (List.range nRows).flatMap (fun r => (List.range nCols).map (fun c => (r, c)))

/-- The `Game::update` loop over a list of positions, threading the state
and stopping at the first abort. -/
def Game.updateGo (now : Nat) : List (Nat × Nat) → Game → Except String Game
  | [], g => .ok g
  | rc :: rest, g =>
    match Game.updateCell now g rc.1 rc.2 with
    | .error e => .error e
    | .ok g' => Game.updateGo now rest g'

/-- `Game::update`: one simulation tick, visiting every cell in row-major
order. -/
def Game.update (now : Nat) (g : Game) : Except String Game :=
  Game.updateGo now (rowMajor g.cells.n_rows g.cells.n_cols) g

/-- `GameBuilder` from `game.rs`. -/
structure GameBuilder where
  settings : GameSettings
  cells : Grid
  players : Option (Players PlayerData)

/-- `GameBuilder::new`: validate the settings, then create the empty
`n_rows × (n_columns * 2)` board. -/
def GameBuilder.new (settings : GameSettings) : Except String GameBuilder :=
  if settings.n_columns = 0 then .error "game must contain at least one column"
  else if settings.n_rows = 0 then .error "game must contain at least one row"
  else if settings.base_span_end ≤ settings.base_span_start then
    .error "base must span at least one row"
  else if settings.n_rows < settings.base_span_end then .error "base must not exceed game area"
  else
    .ok { settings := settings,
          cells := { n_rows := settings.n_rows, n_cols := settings.n_columns * 2,
                     cellf := fun _ _ => Cell.empty },
          players := none }

/-- `GameBuilder::object`: preset an object, failing on an out-of-bounds
position. -/
def GameBuilder.presetObject (b : GameBuilder) (index : Nat × Nat) (ow : OwnedObject) :
    Except String GameBuilder :=
  match b.cells.get? index.1 index.2 with
  | none => .error "cannot preset object"
  | some _ => .ok { b with cells := b.cells.set index.1 index.2 { object := some ow } }

/-- `GameBuilder::players`: set the player data. -/
def GameBuilder.withPlayers (b : GameBuilder) (ps : Players PlayerData) : GameBuilder :=
  { b with players := some ps }

/-- `GameBuilder::finish`: fail if player data was never provided. -/
def GameBuilder.finish (b : GameBuilder) : Except String Game :=
  match b.players with
  | none => .error "player data must be provided"
  | some ps => .ok { settings := b.settings, cells := b.cells, players := ps }

/-- The boolean outcome of a `place_object` call, when it did not error. -/
def resBool (e : Except String (Bool × Game)) : Option Bool :=
  match e with
  | .ok (b, _) => some b
  | .error _ => none

/-- The resulting game of a `place_object` call, when it did not error. -/
def resGame (e : Except String (Bool × Game)) : Option Game :=
  match e with
  | .ok (_, g) => some g
  | .error _ => none

/-- Whether an update pass completed without aborting. -/
def updOk (e : Except String Game) : Bool :=
  match e with
  | .ok _ => true
  | .error _ => false

/-- Each object sits in its owner's half of the board: `Left` owners in
columns `[0, n_columns)`, `Right` owners in `[n_columns, 2 * n_columns)`. -/
def Game.OwnersHalf (g : Game) : Prop :=
  ∀ r c ow, (g.cellAt r c).object = some ow →
    (ow.owner = .Left → c < g.settings.n_columns) ∧
    (ow.owner = .Right → g.settings.n_columns ≤ c ∧ c < 2 * g.settings.n_columns)

/-! Concrete instances used by counterexamples and witnesses.  All use a
one-row board with `n_columns = 2` (four columns in total) unless noted. -/

/-- A passive object used as placement merchandise and as a target. -/
def exBarrier (h : Nat) : Object :=
  { kind := .Barrier, health := h, max_health := h }

/-- A fire object with damage 5 whose cooldown (duration 1, last reset at
time 0) is over at any `now ≥ 1`. -/
def exFire : Object :=
  { kind := .Fire 5 (Cooldown.new 1 0), health := 50, max_health := 50 }

/-- A key object generating 10 keys, cooldown duration 1 last reset at 0. -/
def exKey : Object :=
  { kind := .Key 10 (Cooldown.new 1 0), health := 100, max_health := 100 }

/-- A catalog holding a single placement of cost 20 at index 0. -/
def exCatalog : PlacementSettings :=
  { get_placement := fun i => if i = 0 then some { object := exBarrier 100, cost := 20 } else none }

/-- Standard test settings: two columns per side, one row. -/
def exSettings : GameSettings :=
  { n_columns := 2, n_rows := 1, base_span_start := 0, base_span_end := 1, max_keys := 1000,
    placement := exCatalog }

/-- An empty one-row board whose left player holds 40 keys. -/
def exC1 : Game :=
  { settings := exSettings,
    cells := { n_rows := 1, n_cols := 4, cellf := fun _ _ => Cell.empty },
    players := { left := { keys := 40 }, right := { keys := 7 } } }

/-- An empty one-row board whose left player holds 100 keys. -/
def exC2 : Game :=
  { settings := exSettings,
    cells := { n_rows := 1, n_cols := 4, cellf := fun _ _ => Cell.empty },
    players := { left := { keys := 100 }, right := { keys := 7 } } }

/-- A left-owned fire at `(0, 0)` with right-owned barriers at `(0, 2)`
(health 30, nearer the division line) and `(0, 3)` (health 40, farther). -/
def exC3w : Game :=
  { settings := exSettings,
    cells := { n_rows := 1, n_cols := 4, cellf := fun r c =>
      if r = 0 ∧ c = 0 then { object := some { object := exFire, owner := .Left } }
      else if r = 0 ∧ c = 2 then { object := some { object := exBarrier 30, owner := .Right } }
      else if r = 0 ∧ c = 3 then { object := some { object := exBarrier 40, owner := .Right } }
      else Cell.empty },
    players := { left := { keys := 0 }, right := { keys := 0 } } }

/-- A left-owned fire misplaced at `(0, 2)`, inside the right half, with the
rest of the row empty: its target scan reaches its own cell first. -/
def exC3bad : Game :=
  { settings := exSettings,
    cells := { n_rows := 1, n_cols := 4, cellf := fun r c =>
      if r = 0 ∧ c = 2 then { object := some { object := exFire, owner := .Left } }
      else Cell.empty },
    players := { left := { keys := 0 }, right := { keys := 0 } } }

/-- A board satisfying the owner-half precondition: a one-column-per-side
board with a left-owned fire at `(0, 0)` and a right-owned barrier at
`(0, 1)`. -/
def exC4w : Game :=
  { settings := { exSettings with n_columns := 1 },
    cells := { n_rows := 1, n_cols := 2, cellf := fun r c =>
      if r = 0 ∧ c = 0 then { object := some { object := exFire, owner := .Left } }
      else if r = 0 ∧ c = 1 then { object := some { object := exBarrier 30, owner := .Right } }
      else Cell.empty },
    players := { left := { keys := 0 }, right := { keys := 0 } } }

/-- A left-owned fire misplaced at `(0, 3)` (the right half), used to show
the abort is reachable once the owner-half precondition is dropped. -/
def exC4bad : Game :=
  { settings := exSettings,
    cells := { n_rows := 1, n_cols := 4, cellf := fun r c =>
      if r = 0 ∧ c = 3 then { object := some { object := exFire, owner := .Left } }
      else Cell.empty },
    players := { left := { keys := 0 }, right := { keys := 0 } } }

/-- A left-owned key generator at `(0, 1)` with `max_keys = 15` and the left
player at 10 keys, matching the spec's clamping example. -/
def exC6w : Game :=
  { settings := { exSettings with max_keys := 15 },
    cells := { n_rows := 1, n_cols := 4, cellf := fun r c =>
      if r = 0 ∧ c = 1 then { object := some { object := exKey, owner := .Left } }
      else Cell.empty },
    players := { left := { keys := 10 }, right := { keys := 3 } } }

/-- A board with one right-owned barrier at `(0, 2)` and empty cells
elsewhere, for the `clear_cell` witness. -/
def exC8w : Game :=
  { settings := exSettings,
    cells := { n_rows := 1, n_cols := 4, cellf := fun r c =>
      if r = 0 ∧ c = 2 then { object := some { object := exBarrier 30, owner := .Right } }
      else Cell.empty },
    players := { left := { keys := 0 }, right := { keys := 0 } } }

/-- The builder state that `GameBuilder::new` produces on valid settings:
the given settings, an `n_rows × (n_columns * 2)` board of empty cells, and
no player data yet. -/
def freshBuilder (s : GameSettings) : GameBuilder :=
  { settings := s,
    cells := { n_rows := s.n_rows, n_cols := s.n_columns * 2, cellf := fun _ _ => Cell.empty },
    players := none }

/-- Valid builder settings for the construction witness. -/
def exC9s : GameSettings :=
  { n_columns := 6, n_rows := 7, base_span_start := 2, base_span_end := 5, max_keys := 1000,
    placement := { get_placement := fun _ => none } }

/-! Helper lemmas about the grid, the players container and the scan order. -/

theorem Players.get_set_self (ps : Players T) (p : Player) (x : T) :
    (ps.set p x).get p = x := by
  cases p <;> rfl

theorem Players.get_set_toggle (ps : Players T) (p : Player) (x : T) :
    (ps.set p x).get p.toggle = ps.get p.toggle := by
  cases p <;> rfl

theorem Game.cellAt_object_some_bounds {g : Game} {r c : Nat} {ow : OwnedObject}
    (h : (g.cellAt r c).object = some ow) : r < g.cells.n_rows ∧ c < g.cells.n_cols := by
  by_cases hb : r < g.cells.n_rows ∧ c < g.cells.n_cols
  · exact hb
  · exfalso
    simp only [Game.cellAt, Grid.get?, hb, if_false, Option.getD_none, Cell.empty] at h
    exact Option.noConfusion h

theorem Game.cellAt_setCell_self (g : Game) (r c : Nat) (x : Cell)
    (hr : r < g.cells.n_rows) (hc : c < g.cells.n_cols) :
    (g.setCell r c x).cellAt r c = x := by
  simp [Game.cellAt, Game.setCell, Grid.set, Grid.get?, hr, hc]

theorem Game.cellAt_setCell_ne (g : Game) (r c r' c' : Nat) (x : Cell)
    (h : ¬(r' = r ∧ c' = c)) :
    (g.setCell r c x).cellAt r' c' = g.cellAt r' c' := by
  simp [Game.cellAt, Game.setCell, Grid.set, Grid.get?, h]

theorem Game.cellAt_setCell_cases (g : Game) (r c r' c' : Nat) (x : Cell) :
    (g.setCell r c x).cellAt r' c' = g.cellAt r' c' ∨
      (r' = r ∧ c' = c ∧ (g.setCell r c x).cellAt r' c' = x) := by
  by_cases h : r' = r ∧ c' = c
  · obtain ⟨h1, h2⟩ := h
    subst h1; subst h2
    by_cases hb : r' < g.cells.n_rows ∧ c' < g.cells.n_cols
    · exact Or.inr ⟨rfl, rfl, g.cellAt_setCell_self r' c' x hb.1 hb.2⟩
    · left
      simp [Game.cellAt, Game.setCell, Grid.set, Grid.get?, hb]
  · exact Or.inl (g.cellAt_setCell_ne r c r' c' x h)

theorem Game.setCell_settings (g : Game) (r c : Nat) (x : Cell) :
    (g.setCell r c x).settings = g.settings := rfl

theorem Game.setCell_players (g : Game) (r c : Nat) (x : Cell) :
    (g.setCell r c x).players = g.players := rfl

theorem Game.updateKeys_cellAt (g : Game) (p : Player) (k : Nat) (r c : Nat) :
    (g.updateKeys p k).cellAt r c = g.cellAt r c := rfl

theorem mem_scanColumns_left {nc u : Nat} : u ∈ scanColumns nc .Left ↔ u < nc := by
  simp [scanColumns]

theorem mem_scanColumns_right {nc u : Nat} :
    u ∈ scanColumns nc .Right ↔ nc ≤ u ∧ u < 2 * nc := by
  simp only [scanColumns, List.mem_map, List.mem_range]
  constructor
  · rintro ⟨k, hk, rfl⟩
    omega
  · intro ⟨h1, h2⟩
    exact ⟨u - nc, by omega, by omega⟩

/-! Claim C7, on the cooldown mechanism. -/

/-- C7: `Cooldown.execute` runs the effect and returns its result exactly
when at least the duration has elapsed since the last reset (or creation),
resetting the token in that case; otherwise it returns nothing and leaves
the token unchanged.  A fresh token cannot fire before a full duration has
elapsed since creation, and two consecutive firings are always separated by
at least the duration. -/
theorem C7_cooldown_execute :
    (∀ (α : Type) (c : Cooldown) (now : Nat) (f : Unit → α),
        ((c.execute now f).1 = some (f ()) ↔ c.isOver now = true) ∧
        (c.isOver now = true → c.execute now f = (some (f ()), c.reset now)) ∧
        (c.isOver now = false → c.execute now f = (none, c))) ∧
    (∀ (α : Type) (d t0 now : Nat) (f : Unit → α),
        t0 ≤ now → now < t0 + d → ((Cooldown.new d t0).execute now f).1 = none) ∧
    (∀ (α β : Type) (c c1 c2 : Cooldown) (n1 n2 : Nat) (f : Unit → α) (h : Unit → β)
        (x : α) (y : β),
        c.execute n1 f = (some x, c1) → c1.execute n2 h = (some y, c2) →
        c.duration ≤ n2 - n1) :=
  by
  refine ⟨?_, ?_, ?_⟩
  · intro α c now f
    simp only [Cooldown.execute, Cooldown.isOver, Cooldown.elapsed, decide_eq_true_eq]
    by_cases h : c.duration ≤ now - c.instant <;> simp [h]
  · intro α d t0 now f h1 h2
    simp only [Cooldown.execute, Cooldown.new, Cooldown.elapsed]
    have : ¬(d ≤ now - t0) := by omega
    simp [this]
  · intro α β c c1 c2 n1 n2 f h x y h1 h2
    simp only [Cooldown.execute, Cooldown.elapsed] at h1 h2
    by_cases ha : c.duration ≤ n1 - c.instant
    · simp only [ha, if_true] at h1
      rw [Prod.mk.injEq] at h1
      obtain ⟨-, h1b⟩ := h1
      subst h1b
      by_cases hb : (c.reset n1).duration ≤ n2 - (c.reset n1).instant
      · simpa [Cooldown.reset] using hb
      · simp [hb] at h2
    · simp [ha] at h1

/-- Witness for C7 at concrete inputs: a fresh token of duration 5 created
at time 0 does not fire at time 3, and two consecutive firings at times 9
and 14 are at least 5 apart. -/
theorem C7_witness :
    ((Cooldown.new 5 0).execute 3 (fun _ => (7 : Nat))).1 = none ∧
    (Cooldown.new 5 0).duration ≤ 14 - 9 := by
  constructor
  · exact C7_cooldown_execute.2.1 Nat 5 0 3 (fun _ => 7) (by decide) (by decide)
  · exact C7_cooldown_execute.2.2 Nat Nat (Cooldown.new 5 0)
      { duration := 5, instant := 9 } { duration := 5, instant := 14 } 9 14
      (fun _ => 1) (fun _ => 2) 1 2 (by decide) (by decide)

/-! Claim C5, on damage application. -/

/-- C5: `Cell.receive_damage` subtracts the damage when health strictly
exceeds it, removes the object otherwise, and after any (nonempty) sequence
of damage applications no cell holds an object with health zero. -/
theorem C5_receive_damage :
    (∀ (cl : Cell) (ow : OwnedObject) (d : Nat), cl.object = some ow →
      d < ow.object.health →
      (cl.receive_damage d).object =
        some { ow with object := { ow.object with health := ow.object.health - d } }) ∧
    (∀ (cl : Cell) (ow : OwnedObject) (d : Nat), cl.object = some ow →
      ow.object.health ≤ d → (cl.receive_damage d).object = none) ∧
    (∀ (cl : Cell) (d : Nat) (ow' : OwnedObject),
      (cl.receive_damage d).object = some ow' → 0 < ow'.object.health) ∧
    (∀ (ds : List Nat) (cl : Cell) (ow' : OwnedObject), ds ≠ [] →
      (ds.foldl Cell.receive_damage cl).object = some ow' → 0 < ow'.object.health) := by
  have hone : ∀ (cl : Cell) (d : Nat) (ow' : OwnedObject),
      (cl.receive_damage d).object = some ow' → 0 < ow'.object.health := by
    intro cl d ow' h
    unfold Cell.receive_damage at h
    cases hcl : cl.object with
    | none => rw [hcl] at h; rw [hcl] at h; exact absurd h (by simp [hcl])
    | some ow =>
      rw [hcl] at h
      by_cases hd : d < ow.object.health
      · simp only [hd, if_true, Option.some.injEq] at h
        subst h
        simp only []
        omega
      · simp [hd] at h
  refine ⟨?_, ?_, hone, ?_⟩
  · intro cl ow d h hd
    unfold Cell.receive_damage
    rw [h]
    simp [hd]
  · intro cl ow d h hd
    unfold Cell.receive_damage
    rw [h]
    have : ¬(d < ow.object.health) := by omega
    simp [this]
  · intro ds
    induction ds with
    | nil => intro cl ow' h; exact absurd rfl h
    | cons d rest ih =>
      intro cl ow' _ h
      cases hrest : rest with
      | nil =>
        subst hrest
        simp only [List.foldl_cons, List.foldl_nil] at h
        exact hone _ _ _ h
      | cons d2 rest2 =>
        simp only [List.foldl_cons] at h
        exact ih (cl.receive_damage d) ow' (by simp [hrest]) h

/-- Witness for C5 at the spec's concrete inputs: health 10 against damage
10 removes the object, health 11 against damage 10 leaves health 1. -/
theorem C5_witness :
    (Cell.receive_damage
      { object := some { object := exBarrier 10, owner := .Right } } 10).object = none ∧
    (Cell.receive_damage
      { object := some { object := exBarrier 11, owner := .Right } } 10).object =
      some { object := { kind := .Barrier, health := 1, max_health := 11 }, owner := .Right } := by
  constructor
  · exact C5_receive_damage.2.1 _ { object := exBarrier 10, owner := .Right } 10 rfl (by decide)
  · exact C5_receive_damage.1 _ { object := exBarrier 11, owner := .Right } 10 rfl (by decide)

theorem Grid.set_same (b : Grid) (r c : Nat) (x : Cell) (h : b.cellf r c = x) :
    b.set r c x = b := by
  cases b with
  | mk nr ncl f =>
    simp only [Grid.set, Grid.mk.injEq, true_and]
    funext r' c'
    by_cases h' : r' = r ∧ c' = c
    · obtain ⟨rfl, rfl⟩ := h'
      simpa using h.symm
    · simp [h']

theorem Game.setCell_same (g : Game) (r c : Nat) (x : Cell) (h : g.cells.cellf r c = x) :
    g.setCell r c x = g := by
  show { g with cells := g.cells.set r c x } = g
  rw [Grid.set_same g.cells r c x h]

theorem Game.getCell?_eq_some {g : Game} {pos : Nat × Nat} {cl : Cell}
    (h : g.getCell? pos = some cl) :
    pos.1 < g.cells.n_rows ∧ pos.2 < g.cells.n_cols ∧ g.cells.cellf pos.1 pos.2 = cl := by
  unfold Game.getCell? Grid.get? at h
  by_cases hb : pos.1 < g.cells.n_rows ∧ pos.2 < g.cells.n_cols
  · rw [if_pos hb] at h
    exact ⟨hb.1, hb.2, Option.some.injEq _ _ ▸ h⟩
  · simp [hb] at h

/-! Claim C8, on cell clearing. -/

/-- C8: `clear_cell` fails, with an explicit error and no mutation, exactly
on out-of-bounds positions; on an in-bounds position it succeeds and leaves
the cell empty, all other state untouched; clearing an already-empty cell
returns the state unchanged, and clearing twice equals clearing once. -/
theorem C8_clear_cell :
    (∀ (g : Game) (p : Player) (pos : Nat × Nat),
      g.getCell? pos = none → g.clear_cell p pos = .error "invalid position") ∧
    (∀ (g : Game) (p : Player) (pos : Nat × Nat) (cl : Cell), g.getCell? pos = some cl →
      ∃ g', g.clear_cell p pos = .ok g' ∧
        (g'.cellAt pos.1 pos.2).object = none ∧
        (∀ r c, ¬(r = pos.1 ∧ c = pos.2) → g'.cellAt r c = g.cellAt r c) ∧
        g'.settings = g.settings ∧ g'.players = g.players ∧
        (cl.object = none → g' = g) ∧
        g'.clear_cell p pos = .ok g') := by
  constructor
  · intro g p pos h
    simp [Game.clear_cell, h]
  · intro g p pos cl h
    obtain ⟨hr, hc, hf⟩ := Game.getCell?_eq_some h
    refine ⟨g.setCell pos.1 pos.2 { object := none }, ?_, ?_, ?_, rfl, rfl, ?_, ?_⟩
    · simp [Game.clear_cell, h]
    · rw [Game.cellAt_setCell_self g pos.1 pos.2 _ hr hc]
    · intro r c hne
      exact Game.cellAt_setCell_ne g pos.1 pos.2 r c _ hne
    · intro hcl
      have : cl = { object := none } := by
        cases cl
        simpa using hcl
      subst this
      exact Game.setCell_same g pos.1 pos.2 _ hf
    · have hg' : (g.setCell pos.1 pos.2 { object := none }).getCell? pos =
          some { object := none } := by
        show ((g.setCell pos.1 pos.2 { object := none }).cells.get? pos.1 pos.2) = _
        simp [Game.setCell, Grid.set, Grid.get?, hr, hc]
      simp only [Game.clear_cell, hg']
      rw [Game.setCell_same]
      simp [Game.setCell, Grid.set]

/-- Witness for C8: clearing the already-empty cell `(0, 0)` of a concrete
board succeeds and changes nothing. -/
theorem C8_witness :
    ∃ g', exC8w.clear_cell .Left (0, 0) = .ok g' ∧
      (g'.cellAt 0 0).object = none ∧
      (∀ r c, ¬(r = 0 ∧ c = 0) → g'.cellAt r c = exC8w.cellAt r c) ∧
      g'.settings = exC8w.settings ∧ g'.players = exC8w.players ∧
      (Cell.empty.object = none → g' = exC8w) ∧
      g'.clear_cell .Left (0, 0) = .ok g' := by
  have h := C8_clear_cell.2 exC8w .Left (0, 0) Cell.empty (by decide)
  exact h

/-! Claim C9, on game construction. -/

/-- C9: `GameBuilder::new` fails exactly on invalid settings (zero columns,
zero rows, empty base span, base span past the rows); on valid settings it
produces a builder with an `n_rows × (n_columns * 2)` board of empty cells;
`finish` fails when player data was never provided. -/
theorem C9_builder :
    (∀ s : GameSettings,
      (s.n_columns = 0 ∨ s.n_rows = 0 ∨ s.base_span_end ≤ s.base_span_start ∨
        s.n_rows < s.base_span_end) → ∃ e, GameBuilder.new s = .error e) ∧
    (∀ s : GameSettings, s.n_columns ≠ 0 → s.n_rows ≠ 0 →
      s.base_span_start < s.base_span_end → s.base_span_end ≤ s.n_rows →
      GameBuilder.new s = .ok (freshBuilder s)) ∧
    (∀ b : GameBuilder, b.players = none →
      GameBuilder.finish b = .error "player data must be provided") := by
  refine ⟨?_, ?_, ?_⟩
  · intro s hbad
    unfold GameBuilder.new
    rcases hbad with h | h | h | h <;>
      split_ifs <;> first | exact ⟨_, rfl⟩ | omega
  · intro s h1 h2 h3 h4
    unfold GameBuilder.new
    split_ifs <;> first | rfl | omega
  · intro b h
    simp [GameBuilder.finish, h]

/-- Witness for C9: the valid settings `exC9s` build an empty `7 × 12`
board; dropping `finish` on a builder without player data fails; settings
with `base_span_end` past `n_rows` fail. -/
theorem C9_witness :
    GameBuilder.new exC9s = .ok (freshBuilder exC9s) ∧
    GameBuilder.finish (freshBuilder exC9s) = .error "player data must be provided" ∧
    (∃ e, GameBuilder.new { exC9s with base_span_end := 9 } = .error e) := by
  refine ⟨?_, ?_, ?_⟩
  · exact C9_builder.2.1 exC9s (by decide) (by decide) (by decide) (by decide)
  · exact C9_builder.2.2 _ rfl
  · exact C9_builder.1 _ (by right; right; right; decide)

/-! Claim C10, on the absence of a territory restriction in placement. -/

/-- C10: for every in-bounds position — in either half of the board — the
boolean outcome of `place_object` is determined by the placement index and
the player's keys alone; no check relates the position's column to the
placing player's side. -/
theorem C10_place_anywhere :
    ∀ (g : Game) (p : Player) (pos : Nat × Nat) (index : Nat),
      g.getCell? pos ≠ none →
      resBool (g.place_object p pos index) =
        some (match g.settings.get_placement index with
              | none => false
              | some pl => decide (pl.cost ≤ (g.players.get p).keys)) := by
  intro g p pos index h
  cases hc : g.getCell? pos with
  | none => exact absurd hc h
  | some cl =>
    cases hp : g.settings.get_placement index with
    | none => simp [Game.place_object, hc, hp, resBool]
    | some pl =>
      by_cases hk : pl.cost ≤ (g.players.get p).keys
      · simp [Game.place_object, hc, hp, checkedSub, hk, resBool]
      · simp [Game.place_object, hc, hp, checkedSub, hk, resBool]

/-- Witness for C10: the left player successfully places into the right
half, at column 3 of a two-columns-per-side board. -/
theorem C10_witness : resBool (exC1.place_object .Left (0, 3) 0) = some true := by
  have h := C10_place_anywhere exC1 .Left (0, 3) 0 (by decide)
  simpa using h

/-! Claims C1 and C2, on `place_object`.  This `game.rs` snapshot has no
placement cooldown: the catalog lives in `GameSettings` and its `Placement`
record carries only the object and the cost, so `place_object` gates a
placement on the index and the key count alone. -/

/-- C1 counterexample: with 40 keys and a cost of 20, a second immediate
attempt after a success (no time has passed, so under the reading of the claim
the placement cooldown cannot be over) succeeds again and deducts again —
it does not return `false` with keys unchanged as the claim states. -/
theorem C1_counterexample :
    resBool (exC1.place_object .Left (0, 0) 0) = some true ∧
    ((resGame (exC1.place_object .Left (0, 0) 0)).bind
      (fun g1 => resBool (g1.place_object .Left (0, 0) 0))) = some true ∧
    ((resGame (exC1.place_object .Left (0, 0) 0)).bind
      (fun g1 => resGame (g1.place_object .Left (0, 0) 0))).map
        (fun g2 => (g2.players.get .Left).keys) = some 0 := by
  refine ⟨by decide, by decide, by decide⟩

/-- C1 (amended): if the placement index is invalid in the catalog or the
player's keys fall short of the cost, `place_object` on an in-bounds
position returns `false` and the whole state is unchanged.  (No placement
cooldown exists in this snapshot, so these are the only soft-failure
conditions; after a success a second immediate attempt fails exactly when
the remaining keys are below the cost, as in the spec's `keys = cost = 20`
example.) -/
theorem C1_place_object_failure_pure :
    ∀ (g : Game) (p : Player) (pos : Nat × Nat) (index : Nat),
      g.getCell? pos ≠ none →
      (g.settings.get_placement index = none ∨
        ∃ pl, g.settings.get_placement index = some pl ∧ (g.players.get p).keys < pl.cost) →
      g.place_object p pos index = .ok (false, g) := by
  intro g p pos index hb hfail
  cases hc : g.getCell? pos with
  | none => exact absurd hc hb
  | some cl =>
    rcases hfail with hnone | ⟨pl, hpl, hlt⟩
    · simp [Game.place_object, hc, hnone]
    · have : checkedSub (g.players.get p).keys pl.cost = none := by
        simp [checkedSub]
        omega
      simp [Game.place_object, hc, hpl, this]

/-- Witness for C1: an invalid index (99) and an unaffordable placement
(right player holds 7 < 20 keys) both return `false` with the state
unchanged. -/
theorem C1_witness :
    exC1.place_object .Left (0, 0) 99 = .ok (false, exC1) ∧
    exC1.place_object .Right (0, 0) 0 = .ok (false, exC1) := by
  constructor
  · exact C1_place_object_failure_pure exC1 .Left (0, 0) 99 (by decide) (Or.inl (by decide))
  · exact C1_place_object_failure_pure exC1 .Right (0, 0) 0 (by decide)
      (Or.inr ⟨{ object := exBarrier 100, cost := 20 }, by decide, by decide⟩)

/-- C2 counterexample: on a success nothing but the cells and the key
counts changes — the settings, which hold the entire placement catalog, are
returned untouched, so no placement cooldown is reset (none exists), and a
second immediate attempt succeeds rather than being cooldown-gated. -/
theorem C2_counterexample :
    resBool (exC2.place_object .Left (0, 1) 0) = some true ∧
    (resGame (exC2.place_object .Left (0, 1) 0)).map Game.settings = some exC2.settings ∧
    ((resGame (exC2.place_object .Left (0, 1) 0)).bind
      (fun g1 => resBool (g1.place_object .Left (0, 1) 0))) = some true := by
  refine ⟨by decide, rfl, by decide⟩

/-- C2 (amended): with a valid placement index and keys at least the cost,
`place_object` on an in-bounds position returns `true`, deducts exactly the
cost from the placing player's keys, leaves the other player's data and the
settings unchanged, and writes the placement's object, owned by the placing
player, into the target cell, unconditionally replacing any previous
occupant; every other cell is unchanged.  (No placement cooldown exists in
this snapshot, so none is checked or reset.) -/
theorem C2_place_object_success :
    ∀ (g : Game) (p : Player) (pos : Nat × Nat) (index : Nat) (pl : Placement),
      g.getCell? pos ≠ none →
      g.settings.get_placement index = some pl →
      pl.cost ≤ (g.players.get p).keys →
      ∃ g', g.place_object p pos index = .ok (true, g') ∧
        (g'.players.get p).keys = (g.players.get p).keys - pl.cost ∧
        g'.players.get p.toggle = g.players.get p.toggle ∧
        g'.cellAt pos.1 pos.2 = { object := some { object := pl.object, owner := p } } ∧
        (∀ r c, ¬(r = pos.1 ∧ c = pos.2) → g'.cellAt r c = g.cellAt r c) ∧
        g'.settings = g.settings := by
  intro g p pos index pl hb hpl hk
  cases hc : g.getCell? pos with
  | none => exact absurd hc hb
  | some cl =>
    obtain ⟨hr, hcc, -⟩ := Game.getCell?_eq_some hc
    have hsub : checkedSub (g.players.get p).keys pl.cost =
        some ((g.players.get p).keys - pl.cost) := by
      simp [checkedSub, hk]
    refine ⟨(g.setCell pos.1 pos.2 { object := some { object := pl.object, owner := p } }).updateKeys
        p ((g.players.get p).keys - pl.cost), ?_, ?_, ?_, ?_, ?_, rfl⟩
    · simp [Game.place_object, hc, hpl, hsub]
    · show ((g.players.set p _).get p).keys = _
      rw [Players.get_set_self]
    · show (g.players.set p _).get p.toggle = _
      rw [Players.get_set_toggle]
    · exact Game.cellAt_setCell_self g pos.1 pos.2 _ hr hcc
    · intro r c hne
      exact Game.cellAt_setCell_ne g pos.1 pos.2 r c _ hne

/-- Witness for C2: the left player (100 keys) places the cost-20 barrier
at `(0, 1)`; the call returns `true`, the keys drop to 80, and the cell
holds the barrier. -/
theorem C2_witness :
    ∃ g', exC2.place_object .Left (0, 1) 0 = .ok (true, g') ∧
      (g'.players.get .Left).keys = (exC2.players.get .Left).keys - 20 ∧
      g'.players.get Player.Left.toggle = exC2.players.get Player.Left.toggle ∧
      g'.cellAt 0 1 = { object := some { object := exBarrier 100, owner := .Left } } ∧
      (∀ r c, ¬(r = 0 ∧ c = 1) → g'.cellAt r c = exC2.cellAt r c) ∧
      g'.settings = exC2.settings := by
  exact C2_place_object_success exC2 .Left (0, 1) 0 { object := exBarrier 100, cost := 20 }
    (by decide) (by decide) (by decide)

/-! Claim C6, on key generation during an update step. -/

/-- C6: when a key object's cooldown fires during the update pass, the
owner's keys become `min(keys + generation, max_keys)` (the `u32`
saturating addition cannot push past `max_keys`, itself a `u32`), the keys
never exceed `max_keys`, and the other player's data is unchanged. -/
theorem C6_key_generation :
    ∀ (now : Nat) (g : Game) (r c : Nat) (ow : OwnedObject) (gen : Nat) (cd : Cooldown),
      (g.cellAt r c).object = some ow →
      ow.object.kind = .Key gen cd →
      cd.isOver now = true →
      g.settings.max_keys ≤ U32_MAX →
      ∃ g', Game.updateCell now g r c = .ok g' ∧
        (g'.players.get ow.owner).keys =
          min ((g.players.get ow.owner).keys + gen) g.settings.max_keys ∧
        (g'.players.get ow.owner).keys ≤ g.settings.max_keys ∧
        g'.players.get ow.owner.toggle = g.players.get ow.owner.toggle := by
  intro now g r c ow gen cd hcell hkind hover hmax
  refine ⟨Game.addKeys (g.setCell r c (keyResetCell ow gen cd now)) ow.owner gen, ?_, ?_, ?_, ?_⟩
  · simp [Game.updateCell, hcell, hkind, hover]
  · show ((g.players.set ow.owner _).get ow.owner).keys = _
    rw [Players.get_set_self]
    show min (u32SaturatingAdd (g.players.get ow.owner).keys gen) g.settings.max_keys = _
    unfold u32SaturatingAdd
    omega
  · show ((g.players.set ow.owner _).get ow.owner).keys ≤ _
    rw [Players.get_set_self]
    exact Nat.min_le_right _ _
  · show (g.players.set ow.owner _).get ow.owner.toggle = _
    rw [Players.get_set_toggle]

/-- Witness for C6: the spec's clamping example — a key object generating
10 with the owner at 10 keys and `max_keys = 15`; after the cooldown fires
the owner has 15 keys, the other player still 3. -/
theorem C6_witness :
    ∃ g', Game.updateCell 5 exC6w 0 1 = .ok g' ∧
      (g'.players.get .Left).keys = min ((exC6w.players.get .Left).keys + 10) 15 ∧
      (g'.players.get .Left).keys ≤ 15 ∧
      g'.players.get Player.Left.toggle = exC6w.players.get Player.Left.toggle := by
  exact C6_key_generation 5 exC6w 0 1 { object := exKey, owner := .Left } 10
    (Cooldown.new 1 0) (by decide) (by decide) (by decide) (by decide)

/-! Helper lemmas for the fire-target search (claims C3 and C4). -/

theorem range_map_add_succ (a k : Nat) :
    (List.range (k + 1)).map (fun j => a + j) = a :: (List.range k).map (fun j => (a + 1) + j) := by
  rw [List.range_succ_eq_map, List.map_cons, List.map_map]
  have hc : ((fun j => a + j) ∘ Nat.succ) = fun j => (a + 1) + j := by
    funext j
    simp [Function.comp]
    omega
  rw [hc]
  simp

theorem find?_range_map_add (p : Nat → Bool) (k : Nat) :
    ∀ a : Nat,
      (∀ t, (((List.range k).map (fun j => a + j)).find? p = some t) →
        a ≤ t ∧ t < a + k ∧ p t = true ∧ ∀ u, a ≤ u → u < t → p u = false) ∧
      ((((List.range k).map (fun j => a + j)).find? p = none) →
        ∀ u, a ≤ u → u < a + k → p u = false) := by
  induction k with
  | zero =>
    intro a
    constructor
    · intro t h
      simp at h
    · intro _ u h1 h2
      omega
  | succ k ih =>
    intro a
    rw [range_map_add_succ a k]
    by_cases hp : p a
    · rw [List.find?_cons_of_pos _ hp]
      constructor
      · intro t h
        have ht : t = a := by simpa using h.symm
        subst ht
        exact ⟨Nat.le_refl _, by omega, hp, fun u h1 h2 => by omega⟩
      · intro h
        simp at h
    · rw [List.find?_cons_of_neg _ hp]
      constructor
      · intro t h
        obtain ⟨h1, h2, h3, h4⟩ := (ih (a + 1)).1 t h
        refine ⟨by omega, by omega, h3, ?_⟩
        intro u hu1 hu2
        by_cases hu : u = a
        · subst hu
          simpa using hp
        · exact h4 u (by omega) hu2
      · intro h u hu1 hu2
        by_cases hu : u = a
        · subst hu
          simpa using hp
        · exact (ih (a + 1)).2 h u (by omega) (by omega)

theorem range_reverse_succ (k : Nat) :
    (List.range (k + 1)).reverse = k :: (List.range k).reverse := by
  rw [List.range_succ, List.reverse_append]
  simp

theorem find?_range_reverse (p : Nat → Bool) :
    ∀ k : Nat,
      (∀ t, (((List.range k).reverse).find? p = some t) →
        t < k ∧ p t = true ∧ ∀ u, t < u → u < k → p u = false) ∧
      ((((List.range k).reverse).find? p = none) → ∀ u, u < k → p u = false) := by
  intro k
  induction k with
  | zero =>
    constructor
    · intro t h
      simp at h
    · intro _ u h
      omega
  | succ k ih =>
    rw [range_reverse_succ k]
    by_cases hp : p k
    · rw [List.find?_cons_of_pos _ hp]
      constructor
      · intro t h
        have ht : t = k := by simpa using h.symm
        subst ht
        exact ⟨by omega, hp, fun u h1 h2 => by omega⟩
      · intro h
        simp at h
    · rw [List.find?_cons_of_neg _ hp]
      constructor
      · intro t h
        obtain ⟨h1, h2, h3⟩ := ih.1 t h
        refine ⟨by omega, h2, ?_⟩
        intro u hu1 hu2
        by_cases hu : u = k
        · subst hu
          simpa using hp
        · exact h3 u hu1 (by omega)
      · intro h u hu
        by_cases hu' : u = k
        · subst hu'
          simpa using hp
        · exact ih.2 h u (by omega)

theorem findIn_eq_find? (g : Game) (row cur : Nat) (cols : List Nat)
    (hocc : (g.cellAt row cur).object.isSome = true)
    (hne : cols.find? (fun col => (g.cellAt row col).object.isSome) ≠ some cur) :
    findIn g row cur cols =
      .ok (cols.find? (fun col => (g.cellAt row col).object.isSome)) := by
  induction cols with
  | nil => rfl
  | cons c rest ih =>
    by_cases hc : c = cur
    · subst hc
      have hfc : List.find? (fun col => (g.cellAt row col).object.isSome) (c :: rest) =
          some c := by
        simp [List.find?, hocc]
      exact absurd hfc hne
    · by_cases ho : (g.cellAt row c).object.isSome
      · simp [findIn, List.find?, hc, ho]
      · have hfc : List.find? (fun col => (g.cellAt row col).object.isSome) (c :: rest) =
            List.find? (fun col => (g.cellAt row col).object.isSome) rest := by
          simp [List.find?, ho]
        rw [hfc] at hne ⊢
        have := ih hne
        simpa [findIn, hc, ho] using this

theorem findIn_eq_find?_of_not_mem (g : Game) (row cur : Nat) (cols : List Nat)
    (h : cur ∉ cols) :
    findIn g row cur cols =
      .ok (cols.find? (fun col => (g.cellAt row col).object.isSome)) := by
  induction cols with
  | nil => rfl
  | cons c rest ih =>
    have hc : c ≠ cur := fun hcc => h (hcc ▸ List.mem_cons_self c rest)
    have hrest : cur ∉ rest := fun hm => h (List.mem_cons_of_mem c hm)
    by_cases ho : (g.cellAt row c).object.isSome
    · simp [findIn, List.find?, hc, ho]
    · have hfc : List.find? (fun col => (g.cellAt row col).object.isSome) (c :: rest) =
          List.find? (fun col => (g.cellAt row col).object.isSome) rest := by
        simp [List.find?, ho]
      rw [hfc]
      have := ih hrest
      simpa [findIn, hc, ho] using this

theorem isSome_false_eq_none {α : Type} {o : Option α} (h : o.isSome = false) : o = none := by
  cases o with
  | none => rfl
  | some a => simp at h

theorem fireResetCell_preserves_occupancy (g : Game) (r c : Nat) (ow : OwnedObject)
    (dmg : Nat) (cd : Cooldown) (now : Nat) (hcell : (g.cellAt r c).object = some ow) :
    ∀ row col, ((g.setCell r c (fireResetCell ow dmg cd now)).cellAt row col).object.isSome =
      ((g.cellAt row col).object.isSome : Bool) := by
  intro row col
  rcases Game.cellAt_setCell_cases g r c row col (fireResetCell ow dmg cd now) with hsame |
    ⟨rfl, rfl, hx⟩
  · rw [hsame]
  · rw [hx, hcell]
    rfl

/-- The fire step of `updateCell`, analysed: when the first occupied
scanned cell is not the cell of the fire itself, the step succeeds, and its result
is the cooldown-reset state, with damage applied to the found target if any. -/
theorem updateCell_fire (now : Nat) (g : Game) (r c : Nat) (ow : OwnedObject)
    (dmg : Nat) (cd : Cooldown)
    (hcell : (g.cellAt r c).object = some ow)
    (hkind : ow.object.kind = .Fire dmg cd)
    (hover : cd.isOver now = true)
    (hne : fireTargetSpec g r ow.owner ≠ some c) :
    (fireTargetSpec g r ow.owner = none →
      Game.updateCell now g r c = .ok (g.setCell r c (fireResetCell ow dmg cd now))) ∧
    (∀ t, fireTargetSpec g r ow.owner = some t →
      Game.updateCell now g r c =
        .ok ((g.setCell r c (fireResetCell ow dmg cd now)).setCell r t
          ((g.cellAt r t).receive_damage dmg))) := by
  have hpred : (fun col => (((g.setCell r c (fireResetCell ow dmg cd now)).cellAt r col).object.isSome : Bool)) =
      (fun col => ((g.cellAt r col).object.isSome : Bool)) :=
    funext (fun col => fireResetCell_preserves_occupancy g r c ow dmg cd now hcell r col)
  have hocc1 : (((g.setCell r c (fireResetCell ow dmg cd now)).cellAt r c).object.isSome : Bool) = true := by
    rw [fireResetCell_preserves_occupancy g r c ow dmg cd now hcell r c, hcell]
    rfl
  have hne' : (scanColumns g.settings.n_columns ow.owner.toggle).find?
      (fun col => (((g.setCell r c (fireResetCell ow dmg cd now)).cellAt r col).object.isSome : Bool)) ≠
      some c := by
    rw [hpred]
    exact hne
  have hFT : (g.setCell r c (fireResetCell ow dmg cd now)).find_target r c ow.owner.toggle =
      .ok (fireTargetSpec g r ow.owner) := by
    show findIn (g.setCell r c (fireResetCell ow dmg cd now)) r c
        (scanColumns g.settings.n_columns ow.owner.toggle) = _
    rw [findIn_eq_find? (g.setCell r c (fireResetCell ow dmg cd now)) r c
      (scanColumns g.settings.n_columns ow.owner.toggle) hocc1 hne']
    rw [hpred]
    rfl
  constructor
  · intro htgt
    simp only [Game.updateCell, hcell, hkind, hover, if_true]
    rw [hFT, htgt]
  · intro t htgt
    have htc : t ≠ c := fun h => hne (h ▸ htgt)
    have hcells : (g.setCell r c (fireResetCell ow dmg cd now)).cellAt r t = g.cellAt r t :=
      Game.cellAt_setCell_ne g r c r t _ (fun hh => htc hh.2)
    simp only [Game.updateCell, hcell, hkind, hover, if_true]
    rw [hFT, htgt]
    show Except.ok ((g.setCell r c (fireResetCell ow dmg cd now)).setCell r t
        (((g.setCell r c (fireResetCell ow dmg cd now)).cellAt r t).receive_damage dmg)) = _
    rw [hcells]

theorem fireTargetSpec_left_char (g : Game) (r : Nat) :
    (∀ t, fireTargetSpec g r .Left = some t →
      g.settings.n_columns ≤ t ∧ t < 2 * g.settings.n_columns ∧
      (g.cellAt r t).object.isSome = true ∧
      ∀ u, g.settings.n_columns ≤ u → u < t → (g.cellAt r u).object = none) ∧
    (fireTargetSpec g r .Left = none →
      ∀ u, g.settings.n_columns ≤ u → u < 2 * g.settings.n_columns →
        (g.cellAt r u).object = none) := by
  have h := find?_range_map_add (fun col => ((g.cellAt r col).object.isSome : Bool))
    g.settings.n_columns g.settings.n_columns
  constructor
  · intro t ht
    obtain ⟨h1, h2, h3, h4⟩ := h.1 t ht
    exact ⟨h1, by omega, h3, fun u hu1 hu2 => isSome_false_eq_none (h4 u hu1 hu2)⟩
  · intro ht u hu1 hu2
    exact isSome_false_eq_none (h.2 ht u hu1 (by omega))

theorem fireTargetSpec_right_char (g : Game) (r : Nat) :
    (∀ t, fireTargetSpec g r .Right = some t →
      t < g.settings.n_columns ∧ (g.cellAt r t).object.isSome = true ∧
      ∀ u, t < u → u < g.settings.n_columns → (g.cellAt r u).object = none) ∧
    (fireTargetSpec g r .Right = none →
      ∀ u, u < g.settings.n_columns → (g.cellAt r u).object = none) := by
  have h := find?_range_reverse (fun col => ((g.cellAt r col).object.isSome : Bool))
    g.settings.n_columns
  constructor
  · intro t ht
    obtain ⟨h1, h2, h3⟩ := h.1 t ht
    exact ⟨h1, h2, fun u hu1 hu2 => isSome_false_eq_none (h3 u hu1 hu2)⟩
  · intro ht u hu
    exact isSome_false_eq_none (h.2 ht u hu)

/-! Claim C3, on fire targeting. -/

/-- C3 counterexample: a left-owned fire misplaced in the right half, with
the rest of its row empty, makes its own cell the first occupied cell of
the scan; instead of applying damage there, the update pass aborts with the
`RefCell` double-borrow failure. -/
theorem C3_counterexample :
    updOk (Game.update 5 exC3bad) = false ∧
    fireTargetSpec exC3bad 0 .Left = some 2 := by
  exact ⟨by decide, by decide⟩

/-- C3 (amended): when the cooldown of a fire fires during the update pass and
the first occupied scanned cell is not the cell of the fire itself, the engine
scans only the row of the fire itself and only the opposing half, outward from the
division line (for a left-owned fire the target is the least occupied
column `≥ n_columns`; for a right-owned fire the greatest occupied column
`< n_columns`), damages exactly the first occupied cell found, and changes
no other cell (beyond the cooldown of the fire itself); if no occupied cell exists
in that range, no cell other than that of the fire itself is changed.  (When the
first occupied scanned cell is that of the fire itself — possible only for a fire
standing in the opposing half — the pass instead aborts, see C4.) -/
theorem C3_fire_nearest :
    ∀ (now : Nat) (g : Game) (r c : Nat) (ow : OwnedObject) (dmg : Nat) (cd : Cooldown),
      (g.cellAt r c).object = some ow →
      ow.object.kind = .Fire dmg cd →
      cd.isOver now = true →
      fireTargetSpec g r ow.owner ≠ some c →
      ∃ g', Game.updateCell now g r c = .ok g' ∧
        (∀ r' c', r' ≠ r → g'.cellAt r' c' = g.cellAt r' c') ∧
        (fireTargetSpec g r ow.owner = none →
          ∀ c', c' ≠ c → g'.cellAt r c' = g.cellAt r c') ∧
        (∀ t, fireTargetSpec g r ow.owner = some t →
          g'.cellAt r t = (g.cellAt r t).receive_damage dmg ∧
          (∀ c', c' ≠ c → c' ≠ t → g'.cellAt r c' = g.cellAt r c')) ∧
        (ow.owner = .Left →
          (∀ t, fireTargetSpec g r ow.owner = some t →
            g.settings.n_columns ≤ t ∧ t < 2 * g.settings.n_columns ∧
            (g.cellAt r t).object.isSome = true ∧
            ∀ u, g.settings.n_columns ≤ u → u < t → (g.cellAt r u).object = none) ∧
          (fireTargetSpec g r ow.owner = none →
            ∀ u, g.settings.n_columns ≤ u → u < 2 * g.settings.n_columns →
              (g.cellAt r u).object = none)) ∧
        (ow.owner = .Right →
          (∀ t, fireTargetSpec g r ow.owner = some t →
            t < g.settings.n_columns ∧ (g.cellAt r t).object.isSome = true ∧
            ∀ u, t < u → u < g.settings.n_columns → (g.cellAt r u).object = none) ∧
          (fireTargetSpec g r ow.owner = none →
            ∀ u, u < g.settings.n_columns → (g.cellAt r u).object = none)) := by
  intro now g r c ow dmg cd hcell hkind hover hne
  obtain ⟨hnone, hsome⟩ := updateCell_fire now g r c ow dmg cd hcell hkind hover hne
  cases htgt : fireTargetSpec g r ow.owner with
  | none =>
    refine ⟨_, hnone htgt, ?_, ?_, ?_, ?_, ?_⟩
    · intro r' c' hr
      exact Game.cellAt_setCell_ne g r c r' c' _ (fun hh => hr hh.1)
    · intro _ c' hc'
      exact Game.cellAt_setCell_ne g r c r c' _ (fun hh => hc' hh.2)
    · intro t ht
      simp at ht
    · intro howner
      refine ⟨?_, fun _ => (fireTargetSpec_left_char g r).2 (howner ▸ htgt)⟩
      intro t ht
      simp at ht
    · intro howner
      refine ⟨?_, fun _ => (fireTargetSpec_right_char g r).2 (howner ▸ htgt)⟩
      intro t ht
      simp at ht
  | some t =>
    have hpt : ((g.cellAt r t).object.isSome : Bool) = true := by
      have := List.find?_some htgt
      simpa using this
    obtain ⟨ow2, how2⟩ := Option.isSome_iff_exists.mp hpt
    obtain ⟨hrb, htb⟩ := Game.cellAt_object_some_bounds how2
    have htc : t ≠ c := fun h => hne (h ▸ htgt)
    refine ⟨_, hsome t htgt, ?_, ?_, ?_, ?_, ?_⟩
    · intro r' c' hr
      rw [Game.cellAt_setCell_ne _ r t r' c' _ (fun hh => hr hh.1)]
      exact Game.cellAt_setCell_ne g r c r' c' _ (fun hh => hr hh.1)
    · intro habs
      simp at habs
    · intro t' ht'
      obtain rfl : t = t' := by
        cases ht'
        rfl
      constructor
      · exact Game.cellAt_setCell_self _ r t _ hrb htb
      · intro c' hc'c hc't
        rw [Game.cellAt_setCell_ne _ r t r c' _ (fun hh => hc't hh.2)]
        exact Game.cellAt_setCell_ne g r c r c' _ (fun hh => hc'c hh.2)
    · intro howner
      refine ⟨?_, ?_⟩
      · intro t' ht'
        obtain rfl : t = t' := by
          cases ht'
          rfl
        exact (fireTargetSpec_left_char g r).1 t (howner ▸ htgt)
      · intro habs
        simp at habs
    · intro howner
      refine ⟨?_, ?_⟩
      · intro t' ht'
        obtain rfl : t = t' := by
          cases ht'
          rfl
        exact (fireTargetSpec_right_char g r).1 t (howner ▸ htgt)
      · intro habs
        simp at habs

/-- Witness for C3: a left-owned fire at `(0, 0)` with right-owned objects
at columns 2 (near the division line) and 3 (far); only the nearer one, at
column 2, is damaged. -/
theorem C3_witness :
    ∃ g', Game.updateCell 5 exC3w 0 0 = .ok g' ∧
      g'.cellAt 0 2 = (exC3w.cellAt 0 2).receive_damage 5 ∧
      g'.cellAt 0 3 = exC3w.cellAt 0 3 := by
  obtain ⟨g', heq, hrow, hnone, hsome, hL, hR⟩ :=
    C3_fire_nearest 5 exC3w 0 0 { object := exFire, owner := .Left } 5 (Cooldown.new 1 0)
      (by decide) (by decide) (by decide) (by decide)
  obtain ⟨hdmg, hrest⟩ := hsome 2 (by decide)
  exact ⟨g', heq, hdmg, hrest 3 (by decide) (by decide)⟩

theorem receive_damage_owner {cl : Cell} {d : Nat} {ow' : OwnedObject}
    (h : (cl.receive_damage d).object = some ow') :
    ∃ ow0, cl.object = some ow0 ∧ ow'.owner = ow0.owner := by
  unfold Cell.receive_damage at h
  cases hcl : cl.object with
  | none =>
    simp only [hcl] at h
    simp at h
  | some ow0 =>
    simp only [hcl] at h
    by_cases hd : d < ow0.object.health
    · simp only [hd, if_true] at h
      refine ⟨ow0, rfl, ?_⟩
      have hw : { ow0 with object := { ow0.object with health := ow0.object.health - d } } = ow' := by
        simpa using h
      rw [← hw]
    · simp [hd] at h

theorem ownersHalf_setCell {g : Game} (hg : g.OwnersHalf) (r c : Nat) (x : Cell)
    (hx : ∀ ow', x.object = some ow' →
      ∃ ow0, (g.cellAt r c).object = some ow0 ∧ ow'.owner = ow0.owner) :
    (g.setCell r c x).OwnersHalf := by
  intro r' c' ow' h'
  rcases Game.cellAt_setCell_cases g r c r' c' x with hsame | ⟨rfl, rfl, hx'⟩
  · rw [hsame] at h'
    exact hg r' c' ow' h'
  · rw [hx'] at h'
    obtain ⟨ow0, h0, howner⟩ := hx ow' h'
    have hside := hg r' c' ow0 h0
    exact ⟨fun hL => hside.1 (howner ▸ hL), fun hR => hside.2 (howner ▸ hR)⟩

theorem ownersHalf_addKeys {g : Game} (hg : g.OwnersHalf) (p : Player) (gen : Nat) :
    (g.addKeys p gen).OwnersHalf :=
  fun r c ow h => hg r c ow h

theorem updateCell_ownersHalf (now : Nat) (g : Game) (r c : Nat) (hg : g.OwnersHalf) :
    ∃ g', Game.updateCell now g r c = .ok g' ∧ g'.OwnersHalf := by
  cases hcell : (g.cellAt r c).object with
  | none => exact ⟨g, by simp [Game.updateCell, hcell], hg⟩
  | some ow =>
    cases hkind : ow.object.kind with
    | Barrier => exact ⟨g, by simp [Game.updateCell, hcell, hkind], hg⟩
    | Key gen cd =>
      by_cases hover : cd.isOver now = true
      · refine ⟨(g.setCell r c (keyResetCell ow gen cd now)).addKeys ow.owner gen,
          by simp [Game.updateCell, hcell, hkind, hover], ?_⟩
        apply ownersHalf_addKeys
        apply ownersHalf_setCell hg
        intro ow' h'
        refine ⟨ow, hcell, ?_⟩
        have hw : { ow with object := { ow.object with kind := .Key gen (cd.reset now) } } = ow' := by
          simpa [keyResetCell] using h'
        rw [← hw]
      · exact ⟨g, by simp [Game.updateCell, hcell, hkind, hover], hg⟩
    | Fire dmg cd =>
      by_cases hover : cd.isOver now = true
      · have hside := hg r c ow hcell
        have hnotmem : c ∉ scanColumns g.settings.n_columns ow.owner.toggle := by
          cases howner : ow.owner with
          | Left =>
            have hc := hside.1 howner
            show c ∉ scanColumns g.settings.n_columns Player.Right
            intro hmem
            have := mem_scanColumns_right.mp hmem
            omega
          | Right =>
            have hc := hside.2 howner
            show c ∉ scanColumns g.settings.n_columns Player.Left
            intro hmem
            have := mem_scanColumns_left.mp hmem
            omega
        have hne : fireTargetSpec g r ow.owner ≠ some c := by
          intro habs
          exact hnotmem (List.mem_of_find?_eq_some habs)
        obtain ⟨hnone, hsome⟩ := updateCell_fire now g r c ow dmg cd hcell hkind hover hne
        have hg1 : (g.setCell r c (fireResetCell ow dmg cd now)).OwnersHalf := by
          apply ownersHalf_setCell hg
          intro ow' h'
          refine ⟨ow, hcell, ?_⟩
          have hw : { ow with object := { ow.object with kind := .Fire dmg (cd.reset now) } } = ow' := by
            simpa [fireResetCell] using h'
          rw [← hw]
        cases htgt : fireTargetSpec g r ow.owner with
        | none => exact ⟨_, hnone htgt, hg1⟩
        | some t =>
          have htc : t ≠ c := fun h => hne (h ▸ htgt)
          refine ⟨_, hsome t htgt, ?_⟩
          apply ownersHalf_setCell hg1
          intro ow' h'
          obtain ⟨ow0, h0, howner⟩ := receive_damage_owner h'
          refine ⟨ow0, ?_, howner⟩
          rw [Game.cellAt_setCell_ne g r c r t _ (fun hh => htc hh.2)]
          exact h0
      · exact ⟨g, by simp [Game.updateCell, hcell, hkind, hover], hg⟩

theorem updateGo_ownersHalf (now : Nat) :
    ∀ (l : List (Nat × Nat)) (g : Game), g.OwnersHalf →
      ∃ g', Game.updateGo now l g = .ok g' ∧ g'.OwnersHalf := by
  intro l
  induction l with
  | nil => exact fun g hg => ⟨g, rfl, hg⟩
  | cons rc rest ih =>
    intro g hg
    obtain ⟨g1, h1, hg1⟩ := updateCell_ownersHalf now g rc.1 rc.2 hg
    obtain ⟨g2, h2, hg2⟩ := ih g1 hg1
    refine ⟨g2, ?_, hg2⟩
    simp [Game.updateGo, h1, h2]

/-! Claim C4, on the reachability of the double-borrow abort. -/

/-- C4: when every object sits in its owner's half of the board, a fire's
target scan never reads the (mutably borrowed) cell of the fire itself, the
double-borrow abort is unreachable, and the whole update pass completes
normally; without that precondition the abort is reachable — a left-owned
fire standing in the right half aborts the pass. -/
theorem C4_no_double_borrow :
    (∀ (now : Nat) (g : Game), g.OwnersHalf → ∃ g', Game.update now g = .ok g') ∧
    updOk (Game.update 5 exC4bad) = false := by
  constructor
  · intro now g hg
    obtain ⟨g', h, -⟩ := updateGo_ownersHalf now (rowMajor g.cells.n_rows g.cells.n_cols) g hg
    exact ⟨g', h⟩
  · decide

/-- Witness for C4: a board satisfying the owner-half precondition — a
left-owned fire at `(0, 0)` and a right-owned barrier at `(0, 1)` — updates
without aborting. -/
theorem C4_witness : ∃ g', Game.update 5 exC4w = .ok g' := by
  apply C4_no_double_borrow.1 5 exC4w
  intro r c ow h
  by_cases hb : r < 1 ∧ c < 2
  · have hr0 : r = 0 := by omega
    subst hr0
    have hcase : c = 0 ∨ c = 1 := by omega
    rcases hcase with rfl | rfl
    · have h0 : (exC4w.cellAt 0 0).object = some { object := exFire, owner := Player.Left } := by
        decide
      rw [h0] at h
      have hw : { object := exFire, owner := Player.Left } = ow := by simpa using h
      rw [← hw]
      exact ⟨fun _ => by decide, fun hcontra => by simp at hcontra⟩
    · have h0 : (exC4w.cellAt 0 1).object = some { object := exBarrier 30, owner := Player.Right } := by
        decide
      rw [h0] at h
      have hw : { object := exBarrier 30, owner := Player.Right } = ow := by simpa using h
      rw [← hw]
      exact ⟨fun hcontra => by simp at hcontra, fun _ => by decide⟩
  · have hb' : ¬(r = 0 ∧ c < 2) := by omega
    have h0 : (exC4w.cellAt r c).object = none := by
      simp [exC4w, Game.cellAt, Grid.get?, hb', Cell.empty]
    rw [h0] at h
    simp at h

end Lockwars
